import Mathlib

/-!
Verification development for the redex-tool ingestion core
(`tools/redex-tool/Tool.cpp`): dex-file discovery, ordering, store
assembly, module listing and classpath (jar) bootstrap.

The C++ code is shallowly embedded: strings are `List Char`/`String`,
filesystem contents are explicit entry lists, and the external loaders
(`load_classes_from_dex`, `load_jar_file`, `DexMetadata::parse`) are
oracle functions supplied as parameters.  `Tool::init` additionally
produces an event trace recording each "Loading ..." step, in order,
so that load order and fail-fast behaviour are observable.
-/

namespace RedexTool

/-- Model of C `strcmp` on NUL-free byte strings, following the glibc
behaviour (also the textbook C implementation): the result is the
difference of the first differing bytes, where a missing byte compares
as the NUL terminator (value 0).  `Tool.cpp` compares the result of
`strcmp` against the non-standard threshold `1`, so the magnitude of
the result matters, not only its sign. -/
def strcmp : List Char → List Char → Int
  | [], [] => 0
  | [], b :: _ => 0 - (b.toNat : Int)
  | a :: _, [] => (a.toNat : Int)
  | a :: as, b :: bs =>
    if a = b then strcmp as bs else (a.toNat : Int) - (b.toNat : Int)

/-- Characters accepted as whitespace by C `isspace` in the "C" locale,
which `atoi` skips before the optional sign. -/
def cIsSpace (c : Char) : Bool :=
  c = ' ' || c = '\t' || c = '\n' || c = Char.ofNat 11 || c = Char.ofNat 12 || c = '\r'

/-- Accumulator for the digit-consuming phase of C `atoi`: consumes
leading decimal digits and stops at the first non-digit. -/
def atoiDigits : List Char → Nat → Nat
  | [], acc => acc
  | c :: rest, acc =>
    if c.isDigit then atoiDigits rest (10 * acc + (c.toNat - 48)) else acc

/-- Model of C `atoi`: skip C-locale whitespace, read an optional sign,
then read leading decimal digits (zero digits parse as 0).  Overflow is
not modelled (the result is an unbounded `Int`). -/
def c_atoi (s : List Char) : Int :=
  match s.dropWhile cIsSpace with
  | '-' :: rest => -(atoiDigits rest 0 : Int)
  | '+' :: rest => (atoiDigits rest 0 : Int)
  | rest => (atoiDigits rest 0 : Int)

/-- Filename component of a path string: everything after the last
`/` separator (the whole string if no separator occurs), modelling
`boost::filesystem::path::filename()` on POSIX. -/
def filenameChars (p : List Char) : List Char :=
  (p.reverse.takeWhile (fun c => ¬ c = '/')).reverse

/-- Model of `boost::filesystem::path::extension()` on a filename: empty
for `.` and `..`; otherwise, if the filename contains a dot, the
substring starting at the rightmost dot (dot included); otherwise empty. -/
def extensionChars (n : List Char) : List Char :=
  if n = ['.'] ∨ n = ['.', '.'] then []
  else if n.contains '.' then
    ('.' :: (n.reverse.takeWhile (fun c => ¬ c = '.')).reverse)
  else []

/-- Model of `boost::filesystem::path::stem()` on a filename: the
filename minus its `extensionChars`. -/
def stemChars (n : List Char) : List Char :=
  if n = ['.'] ∨ n = ['.', '.'] then n
  else if n.contains '.' then
    (n.reverse.dropWhile (fun c => ¬ c = '.')).drop 1 |>.reverse
  else n

/-- Substring after the last `-`, modelling
`s.substr(s.rfind("-") + 1)` when `s` contains a dash (which is the
only situation `dex_comparator` evaluates it in). -/
def afterLastDash (s : List Char) : List Char :=
  (s.reverse.takeWhile (fun c => ¬ c = '-')).reverse

/-- Stem of the filename component of a path, as `a.stem().string()`
computes it in `dex_comparator` (boost `stem()` acts on `filename()`). -/
def pathStem (p : String) : List Char :=
  stemChars (filenameChars p.toList)

/-- Numeric suffix a dashed stem parses to in `dex_comparator`:
`atoi(as.substr(as.rfind("-") + 1).c_str())`. -/
def suffixVal (stem : List Char) : Int :=
  c_atoi (afterLastDash stem)

/-- Embedding of `dex_comparator` from `Tool.cpp`: compares two dex
paths by their stems; a dash-free stem sorts before a dashed one; two
dash-free stems compare by `strcmp(as, bs) > 1`; two dashed stems
compare by `bnum > anum` on the `atoi` of their after-last-dash
suffixes. -/
def dex_comparator (a b : String) : Bool :=
  let as := pathStem a
  let bs := pathStem b
  let adashed := as.contains '-'
  let bdashed := bs.contains '-'
  if !adashed && bdashed then true
  else if adashed && !bdashed then false
  else if !adashed && !bdashed then decide (strcmp as bs > 1)
  else decide (suffixVal bs > suffixVal as)

/-- Insertion of an element into a list ahead of the first element it
compares before. -/
def insertSorted (lt : α → α → Bool) (x : α) : List α → List α
  | [] => [x]
  | y :: ys => if lt x y then x :: y :: ys else y :: insertSorted lt x ys

/-- Deterministic comparison sort modelling the
`std::sort(dexen.begin(), dexen.end(), dex_comparator)` call in
`load_root_dexen` (for inputs on which the comparator is a strict weak
order, any conforming `std::sort` produces this order up to ties). -/
def insertionSort (lt : α → α → Bool) : List α → List α
  | [] => []
  | x :: xs => insertSorted lt x (insertionSort lt xs)

/-- Splitting of a character list at `,` or `:` delimiters, modelling
`boost::split(system_jars, system_jar_paths, boost::is_any_of(":,"))`
with the default `token_compress_off`: empty tokens are kept, and the
empty input yields one empty token. -/
def splitAnyChars : List Char → List (List Char)
  | [] => [[]]
  | c :: rest =>
    if c = ',' ∨ c = ':' then [] :: splitAnyChars rest
    else
      match splitAnyChars rest with
      | [] => [[c]]
      | t :: ts => (c :: t) :: ts

/-- Jar-list splitting on strings: the delimited archive-path argument
split into tokens at every `,` or `:`. -/
def splitJars (s : String) : List String :=
  (splitAnyChars s.toList).map fun l => String.mk l

/-- Entry of the dexen root directory as the model sees it: its
filename, whether it is a regular file, whether it is a directory, and
(for directories) the names of the regular files directly inside it.
This is the read-only filesystem content `Tool::init` consumes. -/
structure DirEntry where
  name : String
  isRegularFile : Bool
  isDirectory : Bool
  files : List String
deriving DecidableEq, Repr

/-- Modelled from the spec: `DexMetadata` is declared outside this
repository excerpt (in the external store headers); per the spec it
carries the module name and the ordered list of container-file paths
declared by the module's metadata file (`get_files()` returns that list
in declared order). -/
structure DexMetadata where
  name : String
  files : List String
deriving DecidableEq, Repr

/-- Modelled from the spec: `DexStore` is declared outside this
repository excerpt; per the spec it is a named ordered collection of
loaded class batches: `DexStore("dex")` creates an empty store with
that name, `DexStore(metadata)` one named from the metadata, and
`add_classes` appends a batch.  `C` is the type of one loaded batch
(`DexClasses`), opaque to this core. -/
structure DexStore (C : Type) where
  name : String
  classes : List C
deriving DecidableEq, Repr

/-- Observable event of a `Tool::init` run: each `Loading ...` line it
prints, i.e. each jar registration attempt and each container-file load
attempt, in execution order. -/
inductive Event where
  | jar (path : String)
  | dex (path : String)
deriving DecidableEq, Repr

/-- Discrimination of jar events in a trace. -/
def Event.isJar : Event → Bool
  | .jar _ => true
  | .dex _ => false

/-- External collaborators of the ingestion core, as oracles:
`load_jar_file` (true on success), `load_classes_from_dex` (a class
batch or a load failure), and `DexMetadata::parse` (parsed metadata or
a parse failure). -/
structure ToolEnv (C : Type) where
  loadJar : String → Bool
  loadDex : String → Except String C
  parseMeta : String → Except String DexMetadata

/-- Failure taxonomy of `Tool::init`: `std::invalid_argument` for a bad
dexen directory, `std::runtime_error` for a jar that fails to register,
and propagated load/parse failures from the external collaborators. -/
inductive InitError where
  | invalidArgument (msg : String)
  | runtimeError (msg : String)
  | loadFailure (msg : String)
  | parseFailure (msg : String)
deriving DecidableEq, Repr

/-- Jar-registration loop of `Tool::init`: attempts each token left to
right, recording a `jar` event per attempt, and stops at the first
token `load_jar_file` rejects, returning it; later tokens are not
attempted. -/
def load_jars (loadJar : String → Bool) : List String → List Event × Option String
  | [] => ([], none)
  | j :: rest =>
    if loadJar j then
      ((Event.jar j) :: (load_jars loadJar rest).1, (load_jars loadJar rest).2)
    else ([Event.jar j], some j)

/-- Sequential container-file loading shared by `load_root_dexen` and
`load_store_dexen`: loads each path in order, recording a `dex` event
per attempt; the first load failure aborts the loop and propagates. -/
def load_dexen_loop (loadDex : String → Except String C) :
    List String → List Event × Except String (List C)
  | [] => ([], Except.ok [])
  | p :: rest =>
    match loadDex p with
    | Except.error e => ([Event.dex p], Except.error e)
    | Except.ok c =>
      match load_dexen_loop loadDex rest with
      | (tr, r) => (Event.dex p :: tr, r.map fun cs => c :: cs)

/-- Embedding of `load_root_dexen`: discover the regular files of the
dexen directory whose extension is exactly `.dex`, in directory order,
as full paths; sort them with `dex_comparator`; load each in the sorted
order into the (primary) store's class list. -/
def load_root_dexen (loadDex : String → Except String C)
    (dirStr : String) (entries : List DirEntry) :
    List Event × Except String (List C) :=
  let dexen := entries.filterMap fun e =>
    if e.isRegularFile && (extensionChars (filenameChars e.name.toList) = ".dex".toList : Bool)
    then some (dirStr ++ "/" ++ e.name) else none
  load_dexen_loop loadDex (insertionSort dex_comparator dexen)

/-- Embedding of `load_store_dexen`: loads the metadata's declared file
list in the declared order, with no re-sorting. -/
def load_store_dexen (loadDex : String → Except String C)
    (store_metadata : DexMetadata) : List Event × Except String (List C) :=
  load_dexen_loop loadDex store_metadata.files

/-- Embedding of `list_modules`: a directory entry qualifies as a
module iff it is a directory containing a regular file named
`<entry-name>.json`; qualifying names are returned in directory order. -/
def list_modules (entries : List DirEntry) : List String :=
  entries.filterMap fun e =>
    if e.isDirectory && e.files.contains (e.name ++ ".json")
    then some e.name else none

/-- Metadata path `Tool::init` builds for a module:
`<dexen-dir>/<module>/<module>.json` (with the POSIX preferred
separator). -/
def metaPathOf (dirStr module : String) : String :=
  dirStr ++ "/" ++ module ++ "/" ++ module ++ ".json"

/-- Module-store loop of `Tool::init`: for each listed module in order,
parse its metadata (a parse failure propagates), build a store named
from the metadata, and load its declared files via `load_store_dexen`
(a load failure propagates). -/
def load_modules_loop (env : ToolEnv C) (dirStr : String) :
    List String → List Event × Except InitError (List (DexStore C))
  | [] => ([], Except.ok [])
  | m :: rest =>
    match env.parseMeta (metaPathOf dirStr m) with
    | Except.error e => ([], Except.error (InitError.parseFailure e))
    | Except.ok md =>
      match load_store_dexen env.loadDex md with
      | (tr, Except.error e) => (tr, Except.error (InitError.loadFailure e))
      | (tr, Except.ok cs) =>
        match load_modules_loop env dirStr rest with
        | (tr2, r) => (tr ++ tr2, r.map fun ss => DexStore.mk md.name cs :: ss)

/-- Embedding of `Tool::init`: reject a non-directory dexen path; split
the jar list and register each jar (fail-fast with a `runtime_error`
naming the jar); build the primary store `"dex"` from the sorted root
dexen; then append one store per listed module, loading each module's
declared files in declared order.  `dexen_dir` is `none` when
`dexen_dir_str` does not name a directory; `apk_dir` is accepted and
unused, as in the source.  The result pairs the event trace with
either the store vector or the first error. -/
def Tool_init (env : ToolEnv C) (system_jar_paths : String)
    (apk_dir : String) (dexen_dir_str : String)
    (dexen_dir : Option (List DirEntry)) :
    List Event × Except InitError (List (DexStore C)) :=
  match dexen_dir with
  | none =>
    ([], Except.error (InitError.invalidArgument
      ("'" ++ dexen_dir_str ++ "' is not a directory")))
  | some entries =>
    match load_jars env.loadJar (splitJars system_jar_paths) with
    | (tr, some j) =>
      (tr, Except.error (InitError.runtimeError
        ("Could not load system jar file '" ++ j ++ "'")))
    | (tr, none) =>
      match load_root_dexen env.loadDex dexen_dir_str entries with
      | (tr2, Except.error e) => (tr ++ tr2, Except.error (InitError.loadFailure e))
      | (tr2, Except.ok rootClasses) =>
        match load_modules_loop env dexen_dir_str (list_modules entries) with
        | (tr3, Except.error e) => (tr ++ tr2 ++ tr3, Except.error e)
        | (tr3, Except.ok moduleStores) =>
          (tr ++ tr2 ++ tr3,
           Except.ok (DexStore.mk "dex" rootClasses :: moduleStores))

/-- Insertion of an element at every position of a list, the helper
for enumerating permutations. -/
def insertEverywhere (x : α) : List α → List (List α)
  | [] => [[x]]
  | y :: ys => (x :: y :: ys) :: (insertEverywhere x ys).map (fun l => y :: l)

/-- Enumeration of all permutations of a list by structural recursion
(kernel-reducible, unlike `List.permutations`), used to state
enumeration-order independence over a concrete set. -/
def allPerms : List α → List (List α)
  | [] => [[]]
  | x :: xs => (allPerms xs).flatMap (insertEverywhere x)

/-- Strict byte-wise lexicographic order on character lists, used to
relate the non-dashed branch of `dex_comparator` to a plain
lexicographic comparison. -/
def lexLt : List Char → List Char → Bool
  | [], [] => false
  | [], _ :: _ => true
  | _ :: _, [] => false
  | a :: as, b :: bs => if a = b then lexLt as bs else decide (a.toNat < b.toNat)

/-- Concrete collaborator oracles used by the witness runs: every jar
but `bad.jar` registers, every dex but `D/boom.dex` loads to a batch
equal to its own path, and only `D/modA/modA.json` parses (to a module
named `modA` declaring `[b.dex, a.dex]`). -/
def sampleEnv : ToolEnv String where
  loadJar := fun s => !(s == "bad.jar")
  loadDex := fun p =>
    if p == "D/boom.dex" then Except.error "boom" else Except.ok p
  parseMeta := fun p =>
    if p == "D/modA/modA.json" then
      Except.ok (DexMetadata.mk "modA" ["b.dex", "a.dex"])
    else Except.error "malformed"

/-- Concrete dexen-directory content used by the witness runs: two
top-level dex files, a qualifying module directory `modA`, and a
directory `modB` whose metadata file is misnamed. -/
def sampleEntries : List DirEntry :=
  [DirEntry.mk "classes.dex" true false [],
   DirEntry.mk "modA" false true ["modA.json"],
   DirEntry.mk "modB" false true ["module_b.json"],
   DirEntry.mk "secondary-1.dex" true false []]

theorem dex_comparator_nn (a b : String)
    (ha : (pathStem a).contains '-' = false)
    (hb : (pathStem b).contains '-' = false) :
    dex_comparator a b = decide (1 < strcmp (pathStem a) (pathStem b)) := by
  simp only [dex_comparator, ha, hb]
  rfl

theorem dex_comparator_nd (a b : String)
    (ha : (pathStem a).contains '-' = false)
    (hb : (pathStem b).contains '-' = true) :
    dex_comparator a b = true := by
  simp only [dex_comparator, ha, hb]
  rfl

theorem dex_comparator_dn (a b : String)
    (ha : (pathStem a).contains '-' = true)
    (hb : (pathStem b).contains '-' = false) :
    dex_comparator a b = false := by
  simp only [dex_comparator, ha, hb]
  rfl

theorem dex_comparator_dd (a b : String)
    (ha : (pathStem a).contains '-' = true)
    (hb : (pathStem b).contains '-' = true) :
    dex_comparator a b = decide (suffixVal (pathStem a) < suffixVal (pathStem b)) := by
  simp only [dex_comparator, ha, hb]
  rfl

theorem strcmp_neg (a : List Char) : ∀ b, strcmp a b = -strcmp b a := by
  induction a with
  | nil => intro b; cases b <;> simp [strcmp]
  | cons x xs ih =>
    intro b
    cases b with
    | nil => simp [strcmp]
    | cons y ys =>
      by_cases h : x = y
      · subst h; simp [strcmp, ih]
      · have h2 : ¬ y = x := fun hh => h hh.symm
        simp only [strcmp, if_neg h, if_neg h2]
        omega

theorem strcmp_gt_one_lexLt (a : List Char) :
    ∀ b, 1 < strcmp a b → lexLt b a = true := by
  induction a with
  | nil =>
    intro b h
    cases b with
    | nil => simp [strcmp] at h
    | cons y ys => simp [strcmp] at h; omega
  | cons x xs ih =>
    intro b h
    cases b with
    | nil => simp [lexLt]
    | cons y ys =>
      by_cases hxy : x = y
      · subst hxy
        simp only [strcmp, if_pos rfl] at h
        simpa [lexLt] using ih ys h
      · have h2 : ¬ y = x := fun hh => hxy hh.symm
        simp only [strcmp, if_neg hxy] at h
        have hlt : y.toNat < x.toNat := by omega
        simp [lexLt, h2, hlt]

theorem not_dash_mem_afterLastDash (s : List Char) : ¬ '-' ∈ afterLastDash s := by
  intro hmem
  have h1 : '-' ∈ s.reverse.takeWhile (fun c => ¬ c = '-') := by
    simpa [afterLastDash] using hmem
  have h2 := List.mem_takeWhile_imp h1
  simp at h2

theorem c_atoi_nonneg (s : List Char) (h : ¬ '-' ∈ s) : 0 ≤ c_atoi s := by
  unfold c_atoi
  split
  · rename_i rest heq
    exfalso
    apply h
    apply (List.dropWhile_sublist (l := s) cIsSpace).subset
    rw [heq]
    exact List.mem_cons_self _ _
  · omega
  · omega

theorem suffixVal_nonneg (s : List Char) : 0 ≤ suffixVal s :=
  c_atoi_nonneg _ (not_dash_mem_afterLastDash s)

theorem atoiDigits_no_digit (l : List Char)
    (h : ∀ c, l.head? = some c → c.isDigit = false) : atoiDigits l 0 = 0 := by
  cases l with
  | nil => rfl
  | cons c r => simp [atoiDigits, h c rfl]

theorem c_atoi_no_digit (t : List Char) (h : ∀ c ∈ t, c.isDigit = false) :
    c_atoi t = 0 := by
  have hsub : ∀ c, c ∈ t.dropWhile cIsSpace → c ∈ t := fun c hc =>
    (List.dropWhile_sublist (l := t) cIsSpace).subset hc
  unfold c_atoi
  split
  · rename_i rest heq
    have hz : atoiDigits rest 0 = 0 := by
      apply atoiDigits_no_digit
      intro c hc
      apply h
      apply hsub
      rw [heq]
      cases rest with
      | nil => simp at hc
      | cons d r =>
        simp at hc
        subst hc
        exact List.mem_cons_of_mem _ (List.mem_cons_self _ _)
    simp [hz]
  · rename_i rest heq
    have hz : atoiDigits rest 0 = 0 := by
      apply atoiDigits_no_digit
      intro c hc
      apply h
      apply hsub
      rw [heq]
      cases rest with
      | nil => simp at hc
      | cons d r =>
        simp at hc
        subst hc
        exact List.mem_cons_of_mem _ (List.mem_cons_self _ _)
    simp [hz]
  · have hz : atoiDigits (t.dropWhile cIsSpace) 0 = 0 := by
      apply atoiDigits_no_digit
      intro c hc
      apply h
      apply hsub
      cases hd : t.dropWhile cIsSpace with
      | nil => rw [hd] at hc; simp at hc
      | cons d r =>
        rw [hd] at hc
        simp at hc
        subst hc
        exact List.mem_cons_self _ _
    simp [hz]

/-- Claim C1: for the input set {secondary-2.dex, classes.dex,
secondary-10.dex, secondary-1.dex}, the sort `load_root_dexen` applies
with `dex_comparator` produces exactly classes.dex, secondary-1.dex,
secondary-2.dex, secondary-10.dex — the unsplit primary container
first, then split containers in ascending split-index order — for
every enumeration order of the set; `load_root_dexen` then loads them
in exactly that order. -/
theorem claim_C1_canonical_order :
    ((allPerms ["secondary-2.dex", "classes.dex", "secondary-10.dex",
       "secondary-1.dex"]).all
      fun l => insertionSort dex_comparator l
        == ["classes.dex", "secondary-1.dex", "secondary-2.dex",
            "secondary-10.dex"]) = true ∧
    load_root_dexen (fun p => (Except.ok p : Except String String)) "D"
      [DirEntry.mk "secondary-2.dex" true false [],
       DirEntry.mk "classes.dex" true false [],
       DirEntry.mk "secondary-10.dex" true false [],
       DirEntry.mk "secondary-1.dex" true false []]
      = ([Event.dex "D/classes.dex", Event.dex "D/secondary-1.dex",
          Event.dex "D/secondary-2.dex", Event.dex "D/secondary-10.dex"],
         Except.ok ["D/classes.dex", "D/secondary-1.dex",
                    "D/secondary-2.dex", "D/secondary-10.dex"]) :=
  ⟨by decide, rfl⟩

/-- Claim C2 counterexample: `dex_comparator` is not a strict weak
order and sorting is not enumeration-independent.  On the set
{a.dex, b.dex, c.dex}: a.dex and b.dex are mutually unordered, b.dex
and c.dex are mutually unordered, yet c.dex sorts strictly before
a.dex (incomparability is not transitive), and sorting two different
enumerations of the set yields two different sequences. -/
theorem claim_C2_counterexample :
    insertionSort dex_comparator ["a.dex", "b.dex", "c.dex"]
      = ["c.dex", "b.dex", "a.dex"] ∧
    insertionSort dex_comparator ["b.dex", "a.dex", "c.dex"]
      = ["c.dex", "a.dex", "b.dex"] ∧
    dex_comparator "a.dex" "b.dex" = false ∧
    dex_comparator "b.dex" "a.dex" = false ∧
    dex_comparator "b.dex" "c.dex" = false ∧
    dex_comparator "c.dex" "b.dex" = false ∧
    dex_comparator "c.dex" "a.dex" = true := by
  decide

theorem dex_comparator_asymm (a b : String) :
    dex_comparator a b = false ∨ dex_comparator b a = false := by
  cases ha : (pathStem a).contains '-' <;> cases hb : (pathStem b).contains '-'
  · rcases lt_or_le 1 (strcmp (pathStem a) (pathStem b)) with h | h
    · right
      rw [dex_comparator_nn b a hb ha]
      have hns := strcmp_neg (pathStem b) (pathStem a)
      simp only [decide_eq_false_iff_not, not_lt]
      omega
    · left
      rw [dex_comparator_nn a b ha hb]
      simp only [decide_eq_false_iff_not, not_lt]
      omega
  · right; exact dex_comparator_dn b a hb ha
  · left; exact dex_comparator_dn a b ha hb
  · rcases lt_or_le (suffixVal (pathStem a)) (suffixVal (pathStem b)) with h | h
    · right
      rw [dex_comparator_dd b a hb ha]
      simp only [decide_eq_false_iff_not, not_lt]
      omega
    · left
      rw [dex_comparator_dd a b ha hb]
      simp only [decide_eq_false_iff_not, not_lt]
      omega

/-- Claim C2 amended: `dex_comparator` is asymmetric — for any two
file names at most one of the pair sorts strictly before the other —
but it is not a strict weak order (incomparability is not transitive)
and the sorted sequence is not independent of the input enumeration
order. -/
theorem claim_C2_amended_asymmetry (a b : String) :
    dex_comparator a b = false ∨ dex_comparator b a = false :=
  dex_comparator_asymm a b

/-- Claim C3 counterexample: for the distinct dash-free base names
`a` and `b` (files a.dex, b.dex), neither sorts strictly before the
other — `strcmp` returns ±1, which the comparator's `> 1` threshold
rejects in both directions — so it is not the case that exactly one of
the pair sorts first. -/
theorem claim_C3_counterexample :
    pathStem "a.dex" ≠ pathStem "b.dex" ∧
    (pathStem "a.dex").contains '-' = false ∧
    (pathStem "b.dex").contains '-' = false ∧
    dex_comparator "a.dex" "b.dex" = false ∧
    dex_comparator "b.dex" "a.dex" = false := by
  decide

/-- Claim C3 amended: among two non-dashed base names, a sorts
strictly before b exactly when the byte-wise `strcmp` of a against b
exceeds 1; hence at most one of the pair sorts strictly before the
other, and when one does it is the byte-wise greater name (the order
is descending, and names at byte distance 1 are mutually unordered). -/
theorem claim_C3_amended_bytewise (a b : String)
    (ha : (pathStem a).contains '-' = false)
    (hb : (pathStem b).contains '-' = false) :
    (dex_comparator a b = true ↔ 1 < strcmp (pathStem a) (pathStem b)) ∧
    (dex_comparator a b = false ∨ dex_comparator b a = false) ∧
    (dex_comparator a b = true → lexLt (pathStem b) (pathStem a) = true) := by
  have hiff : dex_comparator a b = true ↔ 1 < strcmp (pathStem a) (pathStem b) := by
    rw [dex_comparator_nn a b ha hb]
    simp
  refine ⟨hiff, dex_comparator_asymm a b, fun hab => ?_⟩
  exact strcmp_gt_one_lexLt _ _ (hiff.mp hab)

/-- Claim C4: among two dashed base names, `dex_comparator` orders
strictly ascending by the `atoi` of the substring after the last dash;
that value is always non-negative; an all-non-digit suffix parses to 0,
so such names are mutually unordered among themselves and sort
strictly before any positive numeric suffix; in particular
secondary-foo.dex and secondary-0.dex are adjacent (neither sorts
strictly before the other) while secondary-foo.dex sorts strictly
before secondary-1.dex. -/
theorem claim_C4_dashed_suffix_order :
    (∀ a b : String,
      (pathStem a).contains '-' = true → (pathStem b).contains '-' = true →
      ((dex_comparator a b = true ↔
          suffixVal (pathStem a) < suffixVal (pathStem b)) ∧
       0 ≤ suffixVal (pathStem a) ∧
       ((∀ c ∈ afterLastDash (pathStem a), c.isDigit = false) →
          suffixVal (pathStem a) = 0) ∧
       (suffixVal (pathStem a) = 0 → suffixVal (pathStem b) = 0 →
          dex_comparator a b = false ∧ dex_comparator b a = false) ∧
       (suffixVal (pathStem a) = 0 → 0 < suffixVal (pathStem b) →
          dex_comparator a b = true))) ∧
    suffixVal (pathStem "secondary-foo.dex") = 0 ∧
    dex_comparator "secondary-foo.dex" "secondary-0.dex" = false ∧
    dex_comparator "secondary-0.dex" "secondary-foo.dex" = false ∧
    dex_comparator "secondary-foo.dex" "secondary-1.dex" = true := by
  refine ⟨?_, by decide, by decide, by decide, by decide⟩
  intro a b ha hb
  have hiff : dex_comparator a b = true ↔
      suffixVal (pathStem a) < suffixVal (pathStem b) := by
    rw [dex_comparator_dd a b ha hb]
    simp
  have hiff2 : dex_comparator b a = true ↔
      suffixVal (pathStem b) < suffixVal (pathStem a) := by
    rw [dex_comparator_dd b a hb ha]
    simp
  refine ⟨hiff, suffixVal_nonneg _, fun hnd => c_atoi_no_digit _ hnd, ?_, ?_⟩
  · intro h0a h0b
    constructor
    · apply Bool.eq_false_iff.mpr
      intro hh
      have := hiff.mp hh
      omega
    · apply Bool.eq_false_iff.mpr
      intro hh
      have := hiff2.mp hh
      omega
  · intro h0a hpos
    exact hiff.mpr (by omega)

/-- Claim C4 witness: the general dashed-name statement applied to
secondary-1.dex and secondary-2.dex. -/
theorem claim_C4_witness :
    dex_comparator "secondary-1.dex" "secondary-2.dex" = true :=
  (claim_C4_dashed_suffix_order.1 "secondary-1.dex" "secondary-2.dex"
    (by decide) (by decide)).1.mpr (by decide)

/-- Claim C3 amended witness: the amended statement applied to
zzz.dex and classes.dex — zzz sorts strictly before classes, and zzz
is the byte-wise greater stem. -/
theorem claim_C3_amended_witness :
    lexLt (pathStem "classes.dex") (pathStem "zzz.dex") = true :=
  (claim_C3_amended_bytewise "zzz.dex" "classes.dex"
    (by decide) (by decide)).2.2 (by decide)

/-- Claim C5: a subdirectory of the root appears in the module list
produced by `list_modules` if and only if it contains a regular file
named exactly its own name plus the `.json` metadata extension; a
subdirectory with no such file, or with a misnamed metadata file, does
not appear. (Entry names are assumed distinct, as directory entries of
one directory are.) -/
theorem claim_C5_module_qualification (entries : List DirEntry) (e : DirEntry)
    (hnd : (entries.map DirEntry.name).Nodup) (he : e ∈ entries)
    (hdir : e.isDirectory = true) :
    e.name ∈ list_modules entries ↔ (e.name ++ ".json") ∈ e.files := by
  constructor
  · intro hm
    rcases List.mem_filterMap.mp hm with ⟨a, hal, hfa⟩
    by_cases hc : (a.isDirectory && a.files.contains (a.name ++ ".json")) = true
    · rw [if_pos hc] at hfa
      have hname : a.name = e.name := Option.some.inj hfa
      have hae : a = e := List.inj_on_of_nodup_map hnd hal he hname
      subst hae
      rw [hname] at hc
      exact List.elem_iff.mp (Bool.and_elim_right hc)
    · rw [if_neg hc] at hfa
      cases hfa
  · intro hf
    apply List.mem_filterMap.mpr
    refine ⟨e, he, ?_⟩
    rw [if_pos]
    rw [hdir]
    simpa using List.elem_iff.mpr hf

/-- Claim C5 witness: in a directory holding `modA` (with metadata
`modA/modA.json`) and `modB` (with only a misnamed `module_b.json`),
`modA` is listed as a module. -/
theorem claim_C5_witness :
    "modA" ∈ list_modules sampleEntries :=
  (claim_C5_module_qualification sampleEntries
    (DirEntry.mk "modA" false true ["modA.json"])
    (by decide) (by decide) rfl).mpr (by decide)

theorem load_dexen_loop_ok {C : Type} (loadDex : String → Except String C)
    (batch : String → C) (files : List String)
    (h : ∀ f ∈ files, loadDex f = Except.ok (batch f)) :
    load_dexen_loop loadDex files
      = (files.map Event.dex, Except.ok (files.map batch)) := by
  induction files with
  | nil => rfl
  | cons p rest ih =>
    have hp := h p (List.mem_cons_self _ _)
    have ih2 := ih fun f hf => h f (List.mem_cons_of_mem _ hf)
    simp [load_dexen_loop, hp, ih2, Except.map]

/-- Claim C6: when every declared file of a module's metadata loads
successfully, `load_store_dexen` loads exactly the declared file list,
in the declared order — the load events and the resulting batch list
both follow the metadata order, with no re-sorting. -/
theorem claim_C6_module_order_fidelity {C : Type}
    (loadDex : String → Except String C) (batch : String → C)
    (md : DexMetadata)
    (h : ∀ f ∈ md.files, loadDex f = Except.ok (batch f)) :
    load_store_dexen loadDex md
      = (md.files.map Event.dex, Except.ok (md.files.map batch)) :=
  load_dexen_loop_ok loadDex batch md.files h

/-- Claim C6 witness: metadata declaring `[b.dex, a.dex]` loads b.dex
then a.dex — not alphabetically re-sorted. -/
theorem claim_C6_witness :
    load_store_dexen (fun f => (Except.ok f : Except String String))
      (DexMetadata.mk "modA" ["b.dex", "a.dex"])
      = ([Event.dex "b.dex", Event.dex "a.dex"],
         Except.ok ["b.dex", "a.dex"]) :=
  claim_C6_module_order_fidelity _ (fun f => f) _ (fun _ _ => rfl)

theorem load_jars_first_fail (ok : String → Bool) (toks1 : List String)
    (j : String) (toks2 : List String)
    (h1 : ∀ x ∈ toks1, ok x = true) (hj : ok j = false) :
    load_jars ok (toks1 ++ j :: toks2)
      = (toks1.map Event.jar ++ [Event.jar j], some j) := by
  induction toks1 with
  | nil => simp [load_jars, hj]
  | cons x xs ih =>
    have hx := h1 x (List.mem_cons_self _ _)
    have ih2 := ih fun y hy => h1 y (List.mem_cons_of_mem _ hy)
    simp [load_jars, hx, ih2]

/-- Claim C7: when the split of the archive-path string has a first
failing archive j (all tokens before it register, j does not), the
whole run aborts with a RuntimeError naming j; the trace shows the
earlier archives and j attempted in list order, no archive after j
attempted, and no container file loaded at that point. -/
theorem claim_C7_classpath_failfast {C : Type} (env : ToolEnv C)
    (jarStr apkDir dirStr : String) (entries : List DirEntry)
    (toks1 : List String) (j : String) (toks2 : List String)
    (hsplit : splitJars jarStr = toks1 ++ j :: toks2)
    (h1 : ∀ x ∈ toks1, env.loadJar x = true) (hj : env.loadJar j = false) :
    Tool_init env jarStr apkDir dirStr (some entries)
      = (toks1.map Event.jar ++ [Event.jar j],
         Except.error (InitError.runtimeError
           ("Could not load system jar file '" ++ j ++ "'"))) := by
  unfold Tool_init
  rw [hsplit, load_jars_first_fail env.loadJar toks1 j toks2 h1 hj]

/-- Claim C7 witness: with archive list `a.jar,b.jar:c.jar` where
b.jar fails to register, the run aborts referencing b.jar, having
attempted only a.jar and b.jar — c.jar is never attempted and nothing
is loaded from the dexen directory. -/
theorem claim_C7_witness :
    Tool_init (ToolEnv.mk (fun s => !(s == "b.jar"))
        (fun p => (Except.ok p : Except String String))
        (fun _ => Except.error "malformed"))
      "a.jar,b.jar:c.jar" "apk" "D" (some sampleEntries)
      = ([Event.jar "a.jar", Event.jar "b.jar"],
         Except.error (InitError.runtimeError
           "Could not load system jar file 'b.jar'")) :=
  claim_C7_classpath_failfast _ "a.jar,b.jar:c.jar" "apk" "D" sampleEntries
    ["a.jar"] "b.jar" ["c.jar"] rfl (by decide) rfl

theorem load_modules_loop_ok {C : Type} (env : ToolEnv C) (dirStr : String) :
    ∀ (mods : List String) (tr : List Event) (stores : List (DexStore C)),
    load_modules_loop env dirStr mods = (tr, Except.ok stores) →
    ∃ mds : List DexMetadata,
      List.Forall₂
        (fun m md => env.parseMeta (metaPathOf dirStr m) = Except.ok md) mods mds ∧
      stores.map DexStore.name = mds.map DexMetadata.name := by
  intro mods
  induction mods with
  | nil =>
    intro tr stores h
    simp [load_modules_loop] at h
    exact ⟨[], List.Forall₂.nil, by simp [← h.2]⟩
  | cons m rest ih =>
    intro tr stores h
    cases hp : env.parseMeta (metaPathOf dirStr m) with
    | error e => simp [load_modules_loop, hp] at h
    | ok md =>
      cases hl : load_store_dexen env.loadDex md with
      | mk tr1 r1 =>
        cases r1 with
        | error e => simp [load_modules_loop, hp, hl] at h
        | ok cs =>
          cases hrest : load_modules_loop env dirStr rest with
          | mk tr2 r2 =>
            cases r2 with
            | error e => simp [load_modules_loop, hp, hl, hrest, Except.map] at h
            | ok ss =>
              simp [load_modules_loop, hp, hl, hrest, Except.map] at h
              rcases ih tr2 ss hrest with ⟨mds, hfa, hnames⟩
              refine ⟨md :: mds, List.Forall₂.cons hp hfa, ?_⟩
              rw [← h.2]
              simp [hnames]

/-- Claim C8: every successful `Tool::init` run returns one store per
listed module plus one: the store at index 0 is always the primary
store under the reserved name `dex`, and the module stores follow it
in exactly the order `list_modules` discovered their directories, each
named from its parsed metadata. -/
theorem claim_C8_store_shape {C : Type} (env : ToolEnv C)
    (jarStr apkDir dirStr : String) (entries : List DirEntry)
    (tr : List Event) (stores : List (DexStore C))
    (h : Tool_init env jarStr apkDir dirStr (some entries)
      = (tr, Except.ok stores)) :
    stores.length = (list_modules entries).length + 1 ∧
    (stores.map DexStore.name).head? = some "dex" ∧
    ∃ mds : List DexMetadata,
      List.Forall₂
        (fun m md => env.parseMeta (metaPathOf dirStr m) = Except.ok md)
        (list_modules entries) mds ∧
      stores.map DexStore.name = "dex" :: mds.map DexMetadata.name := by
  cases hj : load_jars env.loadJar (splitJars jarStr) with
  | mk trj oj =>
    cases oj with
    | some j => simp [Tool_init, hj] at h
    | none =>
      cases hr : load_root_dexen env.loadDex dirStr entries with
      | mk tr2 r2 =>
        cases r2 with
        | error e => simp [Tool_init, hj, hr] at h
        | ok rootClasses =>
          cases hm : load_modules_loop env dirStr (list_modules entries) with
          | mk tr3 r3 =>
            cases r3 with
            | error e => simp [Tool_init, hj, hr, hm] at h
            | ok moduleStores =>
              simp [Tool_init, hj, hr, hm] at h
              rcases load_modules_loop_ok env dirStr _ _ _ hm with ⟨mds, hfa, hnames⟩
              have hlen : moduleStores.length = (list_modules entries).length := by
                have h1 : moduleStores.length = mds.length := by
                  have := congrArg List.length hnames
                  simpa using this
                have h2 := hfa.length_eq
                omega
              refine ⟨?_, ?_, mds, hfa, ?_⟩
              · rw [← h.2]; simp [hlen]
              · rw [← h.2]; rfl
              · rw [← h.2]; simp [hnames]

/-- Claim C8 witness: the shape statement applied to a successful run
over `sampleEntries`, which lists one module (`modA`): two stores,
`dex` first, then `modA`. -/
theorem claim_C8_witness :
    (([DexStore.mk "dex" ["D/classes.dex", "D/secondary-1.dex"],
       DexStore.mk "modA" ["b.dex", "a.dex"]] : List (DexStore String)).length
      = (list_modules sampleEntries).length + 1) ∧
    (([DexStore.mk "dex" (["D/classes.dex", "D/secondary-1.dex"] : List String),
       DexStore.mk "modA" ["b.dex", "a.dex"]].map DexStore.name).head?
      = some "dex") ∧
    (∃ mds : List DexMetadata,
      List.Forall₂
        (fun m md => sampleEnv.parseMeta (metaPathOf "D" m) = Except.ok md)
        (list_modules sampleEntries) mds ∧
      [DexStore.mk "dex" (["D/classes.dex", "D/secondary-1.dex"] : List String),
       DexStore.mk "modA" ["b.dex", "a.dex"]].map DexStore.name
        = "dex" :: mds.map DexMetadata.name) :=
  claim_C8_store_shape sampleEnv "a.jar" "apk" "D" sampleEntries
    [Event.jar "a.jar", Event.dex "D/classes.dex", Event.dex "D/secondary-1.dex",
     Event.dex "b.dex", Event.dex "a.dex"] _ rfl

theorem load_jars_trace_jar (ok : String → Bool) :
    ∀ (l : List String) (ev : Event), ev ∈ (load_jars ok l).1 →
      ev.isJar = true := by
  intro l
  induction l with
  | nil => intro ev h; simp [load_jars] at h
  | cons j rest ih =>
    intro ev h
    by_cases hj : ok j = true
    · simp [load_jars, hj] at h
      rcases h with h | h
      · rw [h]; rfl
      · exact ih ev h
    · rw [load_jars, if_neg hj] at h
      simp at h
      rw [h]; rfl

theorem load_dexen_loop_fail_mem {C : Type} (loadDex : String → Except String C)
    (p e : String) (hf : loadDex p = Except.error e) :
    ∀ (files : List String), Event.dex p ∈ (load_dexen_loop loadDex files).1 →
    (load_dexen_loop loadDex files).2 = Except.error e := by
  intro files
  induction files with
  | nil => intro h; simp [load_dexen_loop] at h
  | cons q rest ih =>
    intro h
    cases hq : loadDex q with
    | error e2 =>
      simp [load_dexen_loop, hq] at h ⊢
      rw [h] at hf
      rw [hq] at hf
      exact Except.error.inj hf
    | ok c =>
      cases hrest : load_dexen_loop loadDex rest with
      | mk trr rr =>
        simp [load_dexen_loop, hq, hrest] at h ⊢
        rcases h with h | h
        · rw [h, hq] at hf; cases hf
        · have := ih (by rw [hrest]; exact h)
          rw [hrest] at this
          simp at this
          simp [this, Except.map]

theorem load_modules_loop_fail_mem {C : Type} (env : ToolEnv C)
    (dirStr p e : String) (hf : env.loadDex p = Except.error e) :
    ∀ (mods : List String),
    Event.dex p ∈ (load_modules_loop env dirStr mods).1 →
    ∃ err, (load_modules_loop env dirStr mods).2 = Except.error err := by
  intro mods
  induction mods with
  | nil => intro h; simp [load_modules_loop] at h
  | cons m rest ih =>
    intro h
    cases hp : env.parseMeta (metaPathOf dirStr m) with
    | error e2 => simp [load_modules_loop, hp] at h
    | ok md =>
      cases hl : load_store_dexen env.loadDex md with
      | mk tr1 r1 =>
        cases r1 with
        | error e2 =>
          refine ⟨InitError.loadFailure e2, ?_⟩
          simp [load_modules_loop, hp, hl]
        | ok cs =>
          cases hrest : load_modules_loop env dirStr rest with
          | mk tr2 r2 =>
            simp [load_modules_loop, hp, hl, hrest] at h ⊢
            rcases h with h | h
            · exfalso
              have hl2 : load_dexen_loop env.loadDex md.files
                  = (tr1, Except.ok cs) := hl
              have hmem : Event.dex p
                  ∈ (load_dexen_loop env.loadDex md.files).1 := by
                rw [hl2]; exact h
              have hres := load_dexen_loop_fail_mem env.loadDex p e hf md.files hmem
              rw [hl2] at hres
              cases hres
            · rcases ih (by rw [hrest]; exact h) with ⟨err, herr⟩
              rw [hrest] at herr
              simp at herr
              refine ⟨err, ?_⟩
              simp [herr, Except.map]

/-- Claim C9: if any container-file load attempted during a
`Tool::init` run fails (in the primary store or in any module store),
the run returns no store collection at all — the result is an error,
never a partial store vector. -/
theorem claim_C9_all_or_nothing {C : Type} (env : ToolEnv C)
    (jarStr apkDir dirStr : String) (dirOpt : Option (List DirEntry))
    (p e : String) (tr : List Event)
    (res : Except InitError (List (DexStore C)))
    (h : Tool_init env jarStr apkDir dirStr dirOpt = (tr, res))
    (hp : Event.dex p ∈ tr) (hf : env.loadDex p = Except.error e) :
    res.isOk = false := by
  cases dirOpt with
  | none =>
    have h2 := congrArg Prod.snd h
    simp [Tool_init] at h2
    rw [← h2]
    rfl
  | some entries =>
    cases hj : load_jars env.loadJar (splitJars jarStr) with
    | mk trj oj =>
      cases oj with
      | some j =>
        have h2 := congrArg Prod.snd h
        simp [Tool_init, hj] at h2
        rw [← h2]
        rfl
      | none =>
        cases hr : load_root_dexen env.loadDex dirStr entries with
        | mk tr2 r2 =>
          cases r2 with
          | error e2 =>
            have h2 := congrArg Prod.snd h
            simp [Tool_init, hj, hr] at h2
            rw [← h2]
            rfl
          | ok rootClasses =>
            cases hm : load_modules_loop env dirStr (list_modules entries) with
            | mk tr3 r3 =>
              cases r3 with
              | error e2 =>
                have h2 := congrArg Prod.snd h
                simp [Tool_init, hj, hr, hm] at h2
                rw [← h2]
                rfl
              | ok moduleStores =>
                exfalso
                have htr := congrArg Prod.fst h
                simp [Tool_init, hj, hr, hm] at htr
                rw [← htr] at hp
                rcases List.mem_append.mp hp with hp1 | hp23
                · have hjar := load_jars_trace_jar env.loadJar _ _
                    (by rw [hj]; exact hp1)
                  simp [Event.isJar] at hjar
                rcases List.mem_append.mp hp23 with hp2 | hp3
                · have hr2 : load_dexen_loop env.loadDex
                      (insertionSort dex_comparator (entries.filterMap fun en =>
                        if en.isRegularFile &&
                            (extensionChars (filenameChars en.name.toList)
                              = ".dex".toList : Bool)
                        then some (dirStr ++ "/" ++ en.name) else none))
                      = (tr2, Except.ok rootClasses) := hr
                  have hmem : Event.dex p ∈ (load_dexen_loop env.loadDex
                      (insertionSort dex_comparator (entries.filterMap fun en =>
                        if en.isRegularFile &&
                            (extensionChars (filenameChars en.name.toList)
                              = ".dex".toList : Bool)
                        then some (dirStr ++ "/" ++ en.name) else none))).1 := by
                    rw [hr2]; exact hp2
                  have hres := load_dexen_loop_fail_mem env.loadDex p e hf _ hmem
                  rw [hr2] at hres
                  cases hres
                · rcases load_modules_loop_fail_mem env dirStr p e hf _
                      (by rw [hm]; exact hp3) with ⟨err, herr⟩
                  rw [hm] at herr
                  cases herr

/-- Claim C9 witness: a directory holding the failing container
boom.dex yields an error result — no store collection is returned. -/
theorem claim_C9_witness :
    (Except.error (InitError.loadFailure "boom")
      : Except InitError (List (DexStore String))).isOk = false :=
  claim_C9_all_or_nothing sampleEnv "a.jar" "apk" "D"
    (some [DirEntry.mk "boom.dex" true false []]) "D/boom.dex" "boom"
    [Event.jar "a.jar", Event.dex "D/boom.dex"] _ rfl (by decide) rfl

theorem load_jars_all_ok (ok : String → Bool) :
    ∀ (l : List String), (∀ j ∈ l, ok j = true) →
    load_jars ok l = (l.map Event.jar, none) := by
  intro l
  induction l with
  | nil => intro hall; rfl
  | cons j rest ih =>
    intro hall
    have hj := hall j (List.mem_cons_self _ _)
    have ih2 := ih fun y hy => hall y (List.mem_cons_of_mem _ hy)
    simp [load_jars, hj, ih2]

theorem load_dexen_loop_trace_dex {C : Type} (f : String → Except String C) :
    ∀ (l : List String) (ev : Event), ev ∈ (load_dexen_loop f l).1 →
      ev.isJar = false := by
  intro l
  induction l with
  | nil => intro ev h; simp [load_dexen_loop] at h
  | cons q rest ih =>
    intro ev h
    cases hq : f q with
    | error e =>
      simp [load_dexen_loop, hq] at h
      rw [h]; rfl
    | ok c =>
      cases hrest : load_dexen_loop f rest with
      | mk trr rr =>
        simp [load_dexen_loop, hq, hrest] at h
        rcases h with h | h
        · rw [h]; rfl
        · exact ih ev (by rw [hrest]; exact h)

theorem load_modules_loop_trace_dex {C : Type} (env : ToolEnv C)
    (dirStr : String) :
    ∀ (mods : List String) (ev : Event),
      ev ∈ (load_modules_loop env dirStr mods).1 → ev.isJar = false := by
  intro mods
  induction mods with
  | nil => intro ev h; simp [load_modules_loop] at h
  | cons m rest ih =>
    intro ev h
    cases hp : env.parseMeta (metaPathOf dirStr m) with
    | error e => simp [load_modules_loop, hp] at h
    | ok md =>
      cases hl : load_store_dexen env.loadDex md with
      | mk tr1 r1 =>
        have htr1 : ∀ ev2 ∈ tr1, Event.isJar ev2 = false := by
          intro ev2 hev2
          have hl2 : load_dexen_loop env.loadDex md.files = (tr1, r1) := hl
          exact load_dexen_loop_trace_dex env.loadDex md.files ev2
            (by rw [hl2]; exact hev2)
        cases r1 with
        | error e =>
          simp [load_modules_loop, hp, hl] at h
          exact htr1 ev h
        | ok cs =>
          cases hrest : load_modules_loop env dirStr rest with
          | mk tr2 r2 =>
            simp [load_modules_loop, hp, hl, hrest] at h
            rcases h with h | h
            · exact htr1 ev h
            · exact ih ev (by rw [hrest]; exact h)

theorem filter_isJar_map_jar (l : List String) :
    (l.map Event.jar).filter Event.isJar = l.map Event.jar := by
  induction l with
  | nil => rfl
  | cons x xs ih => simp [Event.isJar, ih]

/-- Claim C10: splitting the archive-path string keeps empty tokens —
the empty string yields one empty token, adjacent delimiters yield an
empty token between them, and leading/trailing delimiters yield empty
tokens at the ends; `Tool::init` passes every token, the empty ones
included, to the jar loader (when all tokens register, the attempted
jar events are exactly the token list in order), and a failing empty
token aborts the run like any other archive. -/
theorem claim_C10_empty_tokens :
    splitJars "" = [""] ∧
    splitJars "a.jar,,b.jar" = ["a.jar", "", "b.jar"] ∧
    splitJars ",a.jar:" = ["", "a.jar", ""] ∧
    Tool_init (ToolEnv.mk (fun s => !(s == ""))
        (fun p => (Except.ok p : Except String String))
        (fun _ => Except.error "malformed"))
      "a.jar,,b.jar" "apk" "D" (some [])
      = ([Event.jar "a.jar", Event.jar ""],
         Except.error (InitError.runtimeError
           "Could not load system jar file ''")) ∧
    (∀ (C : Type) (env : ToolEnv C) (jarStr apkDir dirStr : String)
        (entries : List DirEntry),
      (∀ t ∈ splitJars jarStr, env.loadJar t = true) →
      (Tool_init env jarStr apkDir dirStr (some entries)).1.filter Event.isJar
        = (splitJars jarStr).map Event.jar) := by
  refine ⟨rfl, rfl, rfl, rfl, ?_⟩
  intro C env jarStr apkDir dirStr entries hall
  cases hr : load_root_dexen env.loadDex dirStr entries with
  | mk tr2 r2 =>
    have htr2 : ∀ ev ∈ tr2, Event.isJar ev = false := by
      intro ev hev
      have hr2 : load_dexen_loop env.loadDex
          (insertionSort dex_comparator (entries.filterMap fun en =>
            if en.isRegularFile &&
                (extensionChars (filenameChars en.name.toList)
                  = ".dex".toList : Bool)
            then some (dirStr ++ "/" ++ en.name) else none)) = (tr2, r2) := hr
      exact load_dexen_loop_trace_dex env.loadDex _ ev (by rw [hr2]; exact hev)
    have hfil2 : tr2.filter Event.isJar = [] :=
      List.filter_eq_nil_iff.mpr fun ev hev => by simp [htr2 ev hev]
    cases r2 with
    | error e =>
      simp [Tool_init, load_jars_all_ok env.loadJar _ hall, hr,
        List.filter_append, filter_isJar_map_jar, hfil2]
    | ok rootClasses =>
      cases hm : load_modules_loop env dirStr (list_modules entries) with
      | mk tr3 r3 =>
        have htr3 : ∀ ev ∈ tr3, Event.isJar ev = false := fun ev hev =>
          load_modules_loop_trace_dex env dirStr _ ev (by rw [hm]; exact hev)
        have hfil3 : tr3.filter Event.isJar = [] :=
          List.filter_eq_nil_iff.mpr fun ev hev => by simp [htr3 ev hev]
        cases r3 with
        | error e =>
          simp [Tool_init, load_jars_all_ok env.loadJar _ hall, hr, hm,
            List.filter_append, filter_isJar_map_jar, hfil2, hfil3]
        | ok ms =>
          simp [Tool_init, load_jars_all_ok env.loadJar _ hall, hr, hm,
            List.filter_append, filter_isJar_map_jar, hfil2, hfil3]

/-- Claim C10 witness: the all-registering conjunct applied to the
token list of `x,,` — all three tokens, the two empty ones included,
are attempted in order. -/
theorem claim_C10_witness :
    (Tool_init (ToolEnv.mk (fun _ => true)
        (fun p => (Except.ok p : Except String String))
        (fun _ => Except.error "malformed"))
      "x,," "apk" "D" (some [])).1.filter Event.isJar
      = (splitJars "x,,").map Event.jar :=
  claim_C10_empty_tokens.2.2.2.2 String _ "x,," "apk" "D" []
    (fun _ _ => rfl)

end RedexTool
